import Mathlib

/-!
# Shallow embedding of `network_database_model.py`

The Python module implements a CODASYL-style network database:

* `Record` — a `@dataclass` with fields `record_type`, `data`, `record_id`,
  `owner_links : Dict[str, Record]`, `member_links : Dict[str, List[Record]]`,
  a hand-written `__hash__` by `record_id`, and the dataclass-generated
  `__eq__` comparing the tuple of all five fields in declaration order.
* `NetworkSet` — `set_name`, `owner_type`, `member_type` and a list of
  instances `{owner, members}`; `connect(owner, member)` scans the instances
  for the first entry whose stored owner compares `==` to `owner`, creates a
  fresh instance otherwise, appends `member` to the instance's member list and
  to `owner.member_links[set_name]`, and overwrites
  `member.owner_links[set_name] = owner`.
* `NetworkDatabase` — dict of records keyed by `record_id`, dict of sets keyed
  by `set_name`, and the currency cursor `current_record`, with operations
  `define_set`, `store_record`, `find_record`, `find_owner_in_set`,
  `find_members_in_set`, `connect_records`.

Python records are mutable heap objects referenced by pointer, so records are
modelled as addresses (`RId`) into a heap `Heap := RId → Record`; Python dicts
are association lists with no duplicate keys whose assignment updates in place
or appends (insertion order semantics); Python `==` on records is the
dataclass structural equality, modelled with an explicit recursion budget
(`Option Bool`, `none` = `RecursionError`) because the generated `__eq__`
recurses through the link maps and can diverge on the cyclic link structures
that `connect` builds.
-/

/-- Heap address of a Python `Record` object (object identity). -/
abbrev RId := Nat

/-- A value stored in a record's `data` dict (`Dict[str, Any]`; the module
only ever stores strings and integers there). -/
inductive PyVal where
  | s (v : String)
  | i (v : Int)
deriving DecidableEq, Repr

/-- The state of one Python `Record` object.  Link maps hold heap addresses of
the linked records, mirroring Python's object references.  Field order follows
the dataclass declaration: `record_type`, `data`, `record_id`, `owner_links`,
`member_links`. -/
structure Record where
  record_type : String
  data : List (String × PyVal)
  record_id : String
  owner_links : List (String × RId)
  member_links : List (String × List RId)
deriving DecidableEq, Repr

/-- The heap: every address holds a record state. -/
abbrev Heap := RId → Record

/-- Python dict lookup `d[k]` / `d.get(k)` on an association list. -/
def dlookup (k : String) : List (String × α) → Option α
  | [] => none
  | (k', v) :: rest => if k' = k then some v else dlookup k rest

/-- Python dict assignment `d[k] = v`: replaces the value in place when the
key is present (keeping its position), appends otherwise. -/
def dset (k : String) (v : α) : List (String × α) → List (String × α)
  | [] => [(k, v)]
  | (k', v') :: rest => if k' = k then (k, v) :: rest else (k', v') :: dset k v rest

/-- Mutation of the record object stored at address `a`. -/
def updateAt (h : Heap) (a : RId) (f : Record → Record) : Heap :=
  fun b => if b = a then f (h b) else h b

/-- Python `==` on two `data` dicts (`Dict[str, Any]`): equal size and, for
every key of the first, the same key mapped to an equal value in the second.
Values are plain strings/ints, so this comparison is total. -/
def pyDictEqV (d1 d2 : List (String × PyVal)) : Bool :=
  d1.length == d2.length &&
    d1.all (fun kv =>
      match dlookup kv.1 d2 with
      | some v => v == kv.2
      | none => false)

/-- Element-wise Python `==` on two lists of record references, with the
interpreter's identity short-circuit before each recursive `__eq__` call.
`none` propagates a `RecursionError` from the element comparison. -/
def pyOptListGo (cmp : RId → RId → Option Bool) : List RId → List RId → Option Bool
  | [], [] => some true
  | x :: xs, y :: ys =>
    if x = y then pyOptListGo cmp xs ys
    else
      match cmp x y with
      | none => none
      | some false => some false
      | some true => pyOptListGo cmp xs ys
  | _, _ => some false

/-- Python `==` on two `owner_links` dicts (values are record references):
walk the first dict, requiring each key in the second with an
identical-or-`==` value. -/
def pyOptDictGo (cmp : RId → RId → Option Bool) (d2 : List (String × RId)) :
    List (String × RId) → Option Bool
  | [] => some true
  | (k, r) :: rest =>
    match dlookup k d2 with
    | none => some false
    | some r2 =>
      if r = r2 then pyOptDictGo cmp d2 rest
      else
        match cmp r r2 with
        | none => none
        | some false => some false
        | some true => pyOptDictGo cmp d2 rest

/-- Python `==` on two `owner_links` dicts: size check, then key/value walk. -/
def pyOptDict (cmp : RId → RId → Option Bool) (d1 d2 : List (String × RId)) : Option Bool :=
  if d1.length = d2.length then pyOptDictGo cmp d2 d1 else some false

/-- Python `==` on two `member_links` dicts (values are lists of record
references). -/
def pyOptDictLGo (cmp : RId → RId → Option Bool) (d2 : List (String × List RId)) :
    List (String × List RId) → Option Bool
  | [] => some true
  | (k, ms) :: rest =>
    match dlookup k d2 with
    | none => some false
    | some ms2 =>
      match pyOptListGo cmp ms ms2 with
      | none => none
      | some false => some false
      | some true => pyOptDictLGo cmp d2 rest

/-- Python `==` on two `member_links` dicts: size check, then key/value walk. -/
def pyOptDictL (cmp : RId → RId → Option Bool) (d1 d2 : List (String × List RId)) : Option Bool :=
  if d1.length = d2.length then pyOptDictLGo cmp d2 d1 else some false

/-- Python `==` on two record objects: the dataclass-generated `__eq__`, which
compares `(record_type, data, record_id, owner_links, member_links)` tuples in
field order with the interpreter's per-element identity short-circuit (so
`a == a` succeeds in one frame).  `fuel` is the remaining recursion depth; at
`0` the call raises `RecursionError`, modelled as `none`. -/
def pyEqR (h : Heap) : Nat → RId → RId → Option Bool
  | 0, _, _ => none
  | fuel + 1, a, b =>
    if a = b then some true
    else if (h a).record_type ≠ (h b).record_type then some false
    else if ¬ pyDictEqV (h a).data (h b).data then some false
    else if (h a).record_id ≠ (h b).record_id then some false
    else
      match pyOptDict (fun x y => pyEqR h fuel x y) (h a).owner_links (h b).owner_links with
      | none => none
      | some false => some false
      | some true =>
          pyOptDictL (fun x y => pyEqR h fuel x y) (h a).member_links (h b).member_links

/-- One `{'owner': Record, 'members': [Record]}` entry of
`NetworkSet.instances`. -/
structure SetInstance where
  owner : RId
  members : List RId
deriving DecidableEq, Repr

/-- The Python `NetworkSet` object. -/
structure NetworkSet where
  set_name : String
  owner_type : String
  member_type : String
  instances : List SetInstance
deriving DecidableEq, Repr

/-- The instance-scan loop of `NetworkSet.connect`: index of the first
instance whose stored owner compares `==` to `owner`; `some none` when the
loop completes without a match, `none` when a comparison raises. -/
def scanInst (h : Heap) (fuel : Nat) (owner : RId) : List SetInstance → Option (Option Nat)
  | [] => some none
  | inst :: rest =>
    match pyEqR h fuel inst.owner owner with
    | none => none
    | some true => some (some 0)
    | some false => (scanInst h fuel owner rest).map (Option.map Nat.succ)

/-- In-place update of the i-th element of a list (mutation of the aliased
instance dict found by the scan). -/
def modifyIdx (f : α → α) : Nat → List α → List α
  | _, [] => []
  | 0, a :: l => f a :: l
  | n + 1, a :: l => a :: modifyIdx f n l

/-- Instance-list update of `NetworkSet.connect`: append `member` to the found
instance's member list, or append a fresh instance `{owner, members=[member]}`
(created with an empty list, then `member` appended). -/
def applyFound (insts : List SetInstance) (owner member : RId) : Option Nat → List SetInstance
  | some i => modifyIdx (fun inst => { inst with members := inst.members ++ [member] }) i insts
  | none => insts ++ [{ owner := owner, members := [member] }]

/-- Mutation of an owner record by `connect`: `member` is appended to
`owner.member_links[set_name]`, the list being created empty first when the
key is absent. -/
def addMemberLink (set_name : String) (member : RId) (r : Record) : Record :=
  { r with
    member_links :=
      dset set_name (((dlookup set_name r.member_links).getD []) ++ [member])
        r.member_links }

/-- Mutation of a member record by `connect`:
`member.owner_links[set_name] = owner`, overwriting any previous owner. -/
def setOwnerLink (set_name : String) (owner : RId) (r : Record) : Record :=
  { r with owner_links := dset set_name owner r.owner_links }

/-- The bidirectional link maintenance of `NetworkSet.connect` (owner's
member list first, then the member's owner pointer). -/
def linkMaint (h : Heap) (set_name : String) (owner member : RId) : Heap :=
  updateAt (updateAt h owner (addMemberLink set_name member)) member
    (setOwnerLink set_name owner)

/-- `NetworkSet.connect(owner, member)`: scan for the owner's instance,
update the instance list, then link maintenance —
`owner.member_links[set_name]` gets `member` appended (the list being created
first when absent) and `member.owner_links[set_name]` is overwritten to
`owner`.  `none` when the scan's `==` raises `RecursionError`. -/
def NetworkSet.connect (fuel : Nat) (h : Heap) (ns : NetworkSet) (owner member : RId) :
    Option (Heap × NetworkSet) :=
  match scanInst h fuel owner ns.instances with
  | none => none
  | some found =>
    some (linkMaint h ns.set_name owner member,
      { ns with instances := applyFound ns.instances owner member found })

/-- The Python `NetworkDatabase` engine state (the heap is threaded
separately). -/
structure NetworkDatabase where
  records : List (String × RId)
  sets : List (String × NetworkSet)
  current_record : Option RId
deriving DecidableEq, Repr

/-- `NetworkDatabase.__init__`: empty record table, no sets, unset cursor. -/
def NetworkDatabase.empty : NetworkDatabase :=
  { records := [], sets := [], current_record := none }

/-- `define_set(set_name, owner_type, member_type)`: registers a fresh
`NetworkSet` under `set_name`, silently overwriting any previous one. -/
def NetworkDatabase.define_set (db : NetworkDatabase) (set_name owner_type member_type : String) :
    NetworkDatabase :=
  { db with
    sets :=
      dset set_name
        { set_name := set_name, owner_type := owner_type, member_type := member_type,
          instances := [] } db.sets }

/-- `store_record(record)`: inserts under the record's `record_id` (silent
overwrite on duplicate id) and returns the record. -/
def NetworkDatabase.store_record (h : Heap) (db : NetworkDatabase) (r : RId) :
    NetworkDatabase × RId :=
  ({ db with records := dset ((h r).record_id) r db.records }, r)

/-- `find_record(record_id)`: on a hit, sets the cursor and returns the
record; on a miss returns `None` with the state untouched. -/
def NetworkDatabase.find_record (db : NetworkDatabase) (record_id : String) :
    NetworkDatabase × Option RId :=
  match dlookup record_id db.records with
  | some r => ({ db with current_record := some r }, some r)
  | none => (db, none)

/-- `find_owner_in_set(set_name)`: when the cursor is set and its
`owner_links` has the set name, moves the cursor to the owner and returns it;
otherwise returns `None` with the cursor unchanged. -/
def NetworkDatabase.find_owner_in_set (h : Heap) (db : NetworkDatabase) (set_name : String) :
    NetworkDatabase × Option RId :=
  match db.current_record with
  | some c =>
    match dlookup set_name (h c).owner_links with
    | some o => ({ db with current_record := some o }, some o)
    | none => (db, none)
  | none => (db, none)

/-- `find_members_in_set(set_name)`: when the cursor is set and its
`member_links` has the set name, returns that member list; otherwise `[]`.
The method body contains no assignment, so the state is returned as-is. -/
def NetworkDatabase.find_members_in_set (h : Heap) (db : NetworkDatabase) (set_name : String) :
    NetworkDatabase × List RId :=
  match db.current_record with
  | some c =>
    match dlookup set_name (h c).member_links with
    | some ms => (db, ms)
    | none => (db, [])
  | none => (db, [])

/-- `connect_records(set_name, owner, member)`: no-op when the set name is not
registered, otherwise delegates to that set's `connect` (the mutated set
object stays at its key). -/
def NetworkDatabase.connect_records (fuel : Nat) (h : Heap) (db : NetworkDatabase)
    (set_name : String) (owner member : RId) : Option (Heap × NetworkDatabase) :=
  match dlookup set_name db.sets with
  | none => some (h, db)
  | some ns =>
    match NetworkSet.connect fuel h ns owner member with
    | none => none
    | some (h', ns') => some (h', { db with sets := dset set_name ns' db.sets })

/-! ## Dictionary and heap lemmas -/

theorem dlookup_dset_self (k : String) (v : α) (d : List (String × α)) :
    dlookup k (dset k v d) = some v := by
  induction d with
  | nil => simp [dset, dlookup]
  | cons kv rest ih =>
    by_cases hk : kv.1 = k
    · simp [dset, hk, dlookup]
    · simpa [dset, hk, dlookup] using ih

theorem dlookup_dset_ne (hk : k' ≠ k) (v : α) (d : List (String × α)) :
    dlookup k' (dset k v d) = dlookup k' d := by
  induction d with
  | nil => simp [dset, dlookup, Ne.symm hk]
  | cons kv rest ih =>
    obtain ⟨k1, v1⟩ := kv
    by_cases hk1 : k1 = k
    · subst hk1
      simp [dset, dlookup, Ne.symm hk]
    · simp [dset, dlookup, hk1, ih]

theorem mem_values_of_dlookup {d : List (String × α)} (hl : dlookup k d = some v) :
    v ∈ d.map Prod.snd := by
  induction d with
  | nil => simp [dlookup] at hl
  | cons kv rest ih =>
    by_cases hk : kv.1 = k
    · simp [dlookup, hk] at hl
      simp [hl]
    · simp [dlookup, hk] at hl
      simp [ih hl]

theorem mem_values_dset {d : List (String × α)}
    (hcond : ∀ w, dlookup k d = some w → w = v) (hx : x ∈ d.map Prod.snd) :
    x ∈ (dset k v d).map Prod.snd := by
  induction d with
  | nil => simp at hx
  | cons kv rest ih =>
    obtain ⟨k1, v1⟩ := kv
    by_cases hk : k1 = k
    · subst hk
      have hv1 : v1 = v := hcond v1 (by simp [dlookup])
      subst hv1
      simpa [dset] using hx
    · have hcond' : ∀ w, dlookup k rest = some w → w = v := by
        intro w hw
        exact hcond w (by simp [dlookup, hk, hw])
      have hx' : x = v1 ∨ x ∈ rest.map Prod.snd := by
        rw [List.map_cons] at hx
        exact List.mem_cons.1 hx
      have hgoal : x = v1 ∨ x ∈ (dset k v rest).map Prod.snd := by
        rcases hx' with h1 | h2
        · exact Or.inl h1
        · exact Or.inr (ih hcond' h2)
      rw [show dset k v ((k1, v1) :: rest) = (k1, v1) :: dset k v rest by simp [dset, hk],
        List.map_cons]
      exact List.mem_cons.2 hgoal

theorem updateAt_self (h : Heap) (a : RId) (f : Record → Record) :
    updateAt h a f a = f (h a) := by
  simp [updateAt]

theorem updateAt_ne (h : Heap) (f : Record → Record) (hne : b ≠ a) :
    updateAt h a f b = h b := by
  simp [updateAt, hne]

/-! ## Python equality under globally unique record ids

The spec declares `record_id` a globally unique identifier.  When distinct
heap objects always carry distinct `record_id`s, the dataclass `==` reduces to
object identity: the tuple comparison reaches the `record_id` component
before ever recursing into the link maps. -/

/-- Distinct record objects carry distinct `record_id`s. -/
def UniqueIds (h : Heap) : Prop :=
  ∀ a b : RId, a ≠ b → (h a).record_id ≠ (h b).record_id

theorem pyEqR_refl (h : Heap) (g : Nat) (a : RId) : pyEqR h (g + 1) a a = some true := by
  simp [pyEqR]

theorem pyEqR_ne_of_uniqueIds (hu : UniqueIds h) (hab : a ≠ b) (g : Nat) :
    pyEqR h (g + 1) a b = some false := by
  have hid : (h a).record_id ≠ (h b).record_id := hu a b hab
  simp only [pyEqR, if_neg hab, if_pos hid, ite_self]

/-- Index of the first instance whose stored owner is the given object, which
is what the scan computes when record ids are globally unique. -/
def firstIdx (o : RId) : List SetInstance → Option Nat
  | [] => none
  | inst :: rest => if inst.owner = o then some 0 else (firstIdx o rest).map Nat.succ

theorem scanInst_of_uniqueIds (hu : UniqueIds h) (g : Nat) (o : RId)
    (insts : List SetInstance) :
    scanInst h (g + 1) o insts = some (firstIdx o insts) := by
  induction insts with
  | nil => rfl
  | cons inst rest ih =>
    by_cases hio : inst.owner = o
    · subst hio
      simp [scanInst, firstIdx, pyEqR_refl]
    · simp [scanInst, firstIdx, pyEqR_ne_of_uniqueIds hu hio, ih, hio]

theorem firstIdx_eq_none_iff (o : RId) (insts : List SetInstance) :
    firstIdx o insts = none ↔ o ∉ insts.map SetInstance.owner := by
  induction insts with
  | nil => simp [firstIdx]
  | cons inst rest ih =>
    by_cases hio : inst.owner = o
    · simp [firstIdx, hio]
    · rw [firstIdx, if_neg hio, Option.map_eq_none', ih, List.map_cons]
      simp only [List.mem_cons, not_or]
      constructor
      · intro hno
        exact ⟨fun he => hio he.symm, hno⟩
      · intro hp
        exact hp.2

/-! ## Instance-list lemmas -/

/-- Member sequence of the first instance held for `o` (empty when `o` has no
instance). -/
def findInstMembers (o : RId) : List SetInstance → List RId
  | [] => []
  | inst :: rest => if inst.owner = o then inst.members else findInstMembers o rest

theorem map_owner_modifyIdx (m : RId) (insts : List SetInstance) :
    ∀ i, (modifyIdx (fun inst => { inst with members := inst.members ++ [m] }) i insts).map
      SetInstance.owner = insts.map SetInstance.owner := by
  induction insts with
  | nil =>
    intro i
    cases i <;> rfl
  | cons inst rest ih =>
    intro i
    cases i with
    | zero => simp [modifyIdx]
    | succ j => simp [modifyIdx, ih j]

theorem length_modifyIdx (f : α → α) (l : List α) :
    ∀ i, (modifyIdx f i l).length = l.length := by
  induction l with
  | nil =>
    intro i
    cases i <;> rfl
  | cons a rest ih =>
    intro i
    cases i with
    | zero => simp [modifyIdx]
    | succ j => simp [modifyIdx, ih j]

theorem findInstMembers_applyFound_self (o m : RId) (insts : List SetInstance) :
    findInstMembers o (applyFound insts o m (firstIdx o insts)) =
      findInstMembers o insts ++ [m] := by
  induction insts with
  | nil => simp [firstIdx, applyFound, findInstMembers]
  | cons inst rest ih =>
    by_cases hio : inst.owner = o
    · simp [firstIdx, hio, applyFound, modifyIdx, findInstMembers]
    · cases hfi : firstIdx o rest with
      | none =>
        rw [hfi] at ih
        rw [firstIdx, if_neg hio, hfi]
        show findInstMembers o ((inst :: rest) ++ [{ owner := o, members := [m] }]) = _
        rw [List.cons_append, findInstMembers, if_neg hio, findInstMembers, if_neg hio]
        exact ih
      | some i =>
        rw [hfi] at ih
        rw [firstIdx, if_neg hio, hfi]
        show findInstMembers o
          (modifyIdx (fun inst => { inst with members := inst.members ++ [m] }) (i + 1)
            (inst :: rest)) = _
        rw [modifyIdx, findInstMembers, if_neg hio, findInstMembers, if_neg hio]
        exact ih

theorem findInstMembers_applyFound_other (o o' m : RId) (ho : o' ≠ o)
    (insts : List SetInstance) :
    findInstMembers o' (applyFound insts o m (firstIdx o insts)) =
      findInstMembers o' insts := by
  induction insts with
  | nil => simp [firstIdx, applyFound, findInstMembers, Ne.symm ho]
  | cons inst rest ih =>
    by_cases hio : inst.owner = o
    · have hio' : inst.owner ≠ o' := by
        rw [hio]
        exact Ne.symm ho
      rw [firstIdx, if_pos hio]
      show findInstMembers o'
        ({ inst with members := inst.members ++ [m] } :: rest) = _
      rw [findInstMembers, findInstMembers, if_neg hio', if_neg hio']
    · cases hfi : firstIdx o rest with
      | none =>
        rw [hfi] at ih
        rw [firstIdx, if_neg hio, hfi]
        show findInstMembers o' ((inst :: rest) ++ [{ owner := o, members := [m] }]) = _
        rw [List.cons_append, findInstMembers, findInstMembers]
        by_cases hio' : inst.owner = o'
        · rw [if_pos hio', if_pos hio']
        · rw [if_neg hio', if_neg hio']
          exact ih
      | some i =>
        rw [hfi] at ih
        rw [firstIdx, if_neg hio, hfi]
        show findInstMembers o'
          (modifyIdx (fun inst => { inst with members := inst.members ++ [m] }) (i + 1)
            (inst :: rest)) = _
        rw [modifyIdx, findInstMembers, findInstMembers]
        by_cases hio' : inst.owner = o'
        · rw [if_pos hio', if_pos hio']
        · rw [if_neg hio', if_neg hio']
          exact ih

theorem map_owner_applyFound_some (insts : List SetInstance) (o m : RId) (i : Nat) :
    (applyFound insts o m (some i)).map SetInstance.owner =
      insts.map SetInstance.owner := by
  simpa [applyFound] using map_owner_modifyIdx m insts i

theorem map_owner_applyFound_none (insts : List SetInstance) (o m : RId) :
    (applyFound insts o m none).map SetInstance.owner =
      insts.map SetInstance.owner ++ [o] := by
  simp [applyFound]

/-! ## Link-maintenance lemmas -/

/-- The member sequence a record holds for a set name (`member_links[S]`,
empty when absent). -/
def memberSeq (r : Record) (set_name : String) : List RId :=
  (dlookup set_name r.member_links).getD []

theorem linkMaint_record_id (h : Heap) (S : String) (o m x : RId) :
    (linkMaint h S o m x).record_id = (h x).record_id := by
  unfold linkMaint updateAt
  by_cases h1 : x = m <;> by_cases h2 : x = o <;>
    simp [h1, h2, addMemberLink, setOwnerLink] <;> split_ifs <;> rfl

theorem uniqueIds_linkMaint (hu : UniqueIds h) (S : String) (o m : RId) :
    UniqueIds (linkMaint h S o m) := by
  intro a b hab
  rw [linkMaint_record_id, linkMaint_record_id]
  exact hu a b hab

theorem linkMaint_owner_links_member (h : Heap) (S : String) (o m : RId) :
    (linkMaint h S o m m).owner_links = dset S o ((h m).owner_links) := by
  unfold linkMaint updateAt
  by_cases h2 : m = o <;> simp [h2, addMemberLink, setOwnerLink]

theorem linkMaint_member_links_owner (h : Heap) (S : String) (o m : RId) :
    (linkMaint h S o m o).member_links =
      dset S (((dlookup S (h o).member_links).getD []) ++ [m]) ((h o).member_links) := by
  unfold linkMaint updateAt
  by_cases h2 : o = m <;> simp [h2, addMemberLink, setOwnerLink]

theorem linkMaint_of_ne (h : Heap) (S : String) (hxo : x ≠ o) (hxm : x ≠ m) :
    linkMaint h S o m x = h x := by
  unfold linkMaint updateAt
  simp [hxo, hxm]

theorem linkMaint_member_links_of_ne (h : Heap) (S : String) (m : RId) (hxo : x ≠ o) :
    (linkMaint h S o m x).member_links = (h x).member_links := by
  unfold linkMaint updateAt
  by_cases h2 : x = m
  · simp only [if_pos h2, if_neg hxo]
    rfl
  · simp only [if_neg h2, if_neg hxo]

theorem memberSeq_linkMaint_of_ne (h : Heap) (S : String) (m : RId) (hxo : x ≠ o) :
    memberSeq (linkMaint h S o m x) S = memberSeq (h x) S := by
  unfold memberSeq
  rw [linkMaint_member_links_of_ne h S m hxo]

theorem linkMaint_owner_links_of_ne (h : Heap) (S : String) (o : RId) (hxm : x ≠ m) :
    (linkMaint h S o m x).owner_links = (h x).owner_links := by
  unfold linkMaint updateAt
  simp only [if_neg hxm]
  by_cases h2 : x = o
  · simp only [if_pos h2]
    rfl
  · simp only [if_neg h2]

theorem dlookup_linkMaint_owner_links_member (h : Heap) (S : String) (o m : RId) :
    dlookup S (linkMaint h S o m m).owner_links = some o := by
  rw [linkMaint_owner_links_member, dlookup_dset_self]

theorem memberSeq_linkMaint_owner (h : Heap) (S : String) (o m : RId) :
    memberSeq (linkMaint h S o m o) S = memberSeq (h o) S ++ [m] := by
  unfold memberSeq
  rw [linkMaint_member_links_owner, dlookup_dset_self]
  rfl

/-! ## `connect` characterization -/

theorem connect_eq_of_uniqueIds (hu : UniqueIds h) (g : Nat) (ns : NetworkSet) (o m : RId) :
    NetworkSet.connect (g + 1) h ns o m =
      some (linkMaint h ns.set_name o m,
        { ns with instances := applyFound ns.instances o m (firstIdx o ns.instances) }) := by
  unfold NetworkSet.connect
  rw [scanInst_of_uniqueIds hu]

theorem connect_records_eq_of_uniqueIds (hu : UniqueIds h) (g : Nat)
    (db : NetworkDatabase) (S : String) (o m : RId) (ns : NetworkSet)
    (hreg : dlookup S db.sets = some ns) :
    NetworkDatabase.connect_records (g + 1) h db S o m =
      some (linkMaint h ns.set_name o m,
        { db with
          sets :=
            dset S
              { ns with instances := applyFound ns.instances o m (firstIdx o ns.instances) }
              db.sets }) := by
  simp only [NetworkDatabase.connect_records, hreg, connect_eq_of_uniqueIds hu]

theorem connect_some_inv {fuel : Nat} {h : Heap} {ns : NetworkSet} {o m : RId}
    {h' : Heap} {ns' : NetworkSet}
    (hc : NetworkSet.connect fuel h ns o m = some (h', ns')) :
    h' = linkMaint h ns.set_name o m ∧ ns'.set_name = ns.set_name := by
  unfold NetworkSet.connect at hc
  cases hsc : scanInst h fuel o ns.instances with
  | none =>
    rw [hsc] at hc
    cases hc
  | some found =>
    rw [hsc] at hc
    have heq := Option.some.inj hc
    rw [Prod.ext_iff] at heq
    obtain ⟨hh, hn⟩ := heq
    constructor
    · exact hh.symm
    · have hn2 : ns' = { ns with instances := applyFound ns.instances o m found } := hn.symm
      rw [hn2]

theorem connect_records_state {fuel : Nat} {h : Heap} {db : NetworkDatabase} {S : String}
    {o m : RId} {h' : Heap} {db' : NetworkDatabase}
    (hc : NetworkDatabase.connect_records fuel h db S o m = some (h', db')) :
    db'.records = db.records ∧ db'.current_record = db.current_record ∧
      ∀ x s v, dlookup s (h' x).owner_links = some v →
        v = o ∨ dlookup s (h x).owner_links = some v := by
  cases hreg : dlookup S db.sets with
  | none =>
    simp only [NetworkDatabase.connect_records, hreg] at hc
    have heq := Option.some.inj hc
    rw [Prod.ext_iff] at heq
    obtain ⟨hh, hd⟩ := heq
    have hh' : h' = h := hh.symm
    have hd' : db' = db := hd.symm
    subst hh'
    subst hd'
    exact ⟨rfl, rfl, fun x s v hv => Or.inr hv⟩
  | some ns =>
    simp only [NetworkDatabase.connect_records, hreg] at hc
    cases hcc : NetworkSet.connect fuel h ns o m with
    | none =>
      rw [hcc] at hc
      simp at hc
    | some p =>
      obtain ⟨h2, ns'⟩ := p
      rw [hcc] at hc
      have heq := Option.some.inj hc
      rw [Prod.ext_iff] at heq
      obtain ⟨hh, hd⟩ := heq
      have hh' : h' = h2 := hh.symm
      have hd' : db' = { db with sets := dset S ns' db.sets } := hd.symm
      have hheap : h2 = linkMaint h ns.set_name o m := (connect_some_inv hcc).1
      subst hh'
      subst hd'
      refine ⟨rfl, rfl, ?_⟩
      intro x s v hv
      rw [hheap] at hv
      by_cases hxm : x = m
      · subst hxm
        rw [linkMaint_owner_links_member] at hv
        by_cases hsS : s = ns.set_name
        · subst hsS
          rw [dlookup_dset_self] at hv
          exact Or.inl (Option.some.inj hv).symm
        · rw [dlookup_dset_ne hsS] at hv
          exact Or.inr hv
      · rw [linkMaint_owner_links_of_ne h ns.set_name o hxm] at hv
        exact Or.inr hv

theorem connect_records_spec (hu : UniqueIds h) (g : Nat) (db : NetworkDatabase)
    (S : String) (o m : RId) (ns : NetworkSet)
    (hreg : dlookup S db.sets = some ns) (hname : ns.set_name = S) :
    NetworkDatabase.connect_records (g + 1) h db S o m =
      some (linkMaint h S o m,
        { db with
          sets :=
            dset S
              { ns with
                set_name := S,
                instances := applyFound ns.instances o m (firstIdx o ns.instances) }
              db.sets }) := by
  have hc := connect_records_eq_of_uniqueIds hu g db S o m ns hreg
  rw [hname] at hc
  exact hc

/-! ## Concrete heaps for witnesses -/

/-- Filler for unused heap addresses. -/
def blankRecord : Record :=
  { record_type := "", data := [], record_id := "", owner_links := [], member_links := [] }

/-- A heap in which every address holds a distinct `record_id` (the spec's
globally-unique-identifier discipline). -/
def uheap : Heap := fun a =>
  { record_type := "T", data := [], record_id := String.mk (List.replicate a 'x'),
    owner_links := [], member_links := [] }

theorem uniqueIds_uheap : UniqueIds uheap := by
  intro a b hab hid
  apply hab
  have h1 : List.replicate a 'x' = List.replicate b 'x' := congrArg String.data hid
  have h2 := congrArg List.length h1
  simpa using h2

/-- The engine state after `define_set("S", "T", "T")` on an empty engine. -/
def dbW : NetworkDatabase := NetworkDatabase.empty.define_set "S" "T" "T"

/-- The `NetworkSet` object registered by `dbW`. -/
def nsW : NetworkSet :=
  { set_name := "S", owner_type := "T", member_type := "T", instances := [] }

/-! ## C1 -/

/-- C1: with a registered set name `S` and globally unique record ids,
`connect_records(S, owner, member)` sets `member.owner_links[S] = owner` and
appends `member` once to `owner.member_links[S]`; a second identical connect
appends again, so the pair occurs twice in `owner.member_links[S]` and twice
in the set instance's member sequence — no deduplication, no idempotence. -/
theorem c1_connect_links_and_no_dedup (g : Nat) (h : Heap) (db : NetworkDatabase)
    (S : String) (o m : RId) (ns : NetworkSet)
    (hu : UniqueIds h) (hreg : dlookup S db.sets = some ns) (hname : ns.set_name = S) :
    ∃ h' db', NetworkDatabase.connect_records (g + 1) h db S o m = some (h', db') ∧
      dlookup S (h' m).owner_links = some o ∧
      memberSeq (h' o) S = memberSeq (h o) S ++ [m] ∧
      (memberSeq (h' o) S).count m = (memberSeq (h o) S).count m + 1 ∧
      ∃ h'' db'', NetworkDatabase.connect_records (g + 1) h' db' S o m = some (h'', db'') ∧
        dlookup S (h'' m).owner_links = some o ∧
        memberSeq (h'' o) S = memberSeq (h o) S ++ [m, m] ∧
        ∃ ns'', dlookup S db''.sets = some ns'' ∧
          findInstMembers o ns''.instances = findInstMembers o ns.instances ++ [m, m] := by
  refine ⟨linkMaint h S o m, _, connect_records_spec hu g db S o m ns hreg hname,
    dlookup_linkMaint_owner_links_member h S o m, memberSeq_linkMaint_owner h S o m, ?_, ?_⟩
  · rw [memberSeq_linkMaint_owner]
    simp [List.count_append]
  · have hu' : UniqueIds (linkMaint h S o m) := uniqueIds_linkMaint hu S o m
    have hreg' :
        dlookup S
          (dset S
            { ns with
              set_name := S,
              instances := applyFound ns.instances o m (firstIdx o ns.instances) }
            db.sets) =
          some
            { ns with
              set_name := S,
              instances := applyFound ns.instances o m (firstIdx o ns.instances) } :=
      dlookup_dset_self S _ db.sets
    refine ⟨linkMaint (linkMaint h S o m) S o m, _,
      connect_records_spec hu' g _ S o m _ hreg' rfl,
      dlookup_linkMaint_owner_links_member (linkMaint h S o m) S o m, ?_, ?_⟩
    · rw [memberSeq_linkMaint_owner, memberSeq_linkMaint_owner, List.append_assoc]
      rfl
    · refine ⟨_, dlookup_dset_self S _ _, ?_⟩
      rw [findInstMembers_applyFound_self, findInstMembers_applyFound_self, List.append_assoc]
      rfl

/-- Witness for C1 at a concrete input: set `"S"` registered on an empty
engine, owner at address `0`, member at address `1`, recursion budget `1`. -/
theorem c1_connect_links_and_no_dedup_witness :
    UniqueIds uheap ∧ dlookup "S" dbW.sets = some nsW ∧ nsW.set_name = "S" ∧
    (∃ h' db', NetworkDatabase.connect_records (0 + 1) uheap dbW "S" 0 1 = some (h', db') ∧
      dlookup "S" (h' 1).owner_links = some 0 ∧
      memberSeq (h' 0) "S" = memberSeq (uheap 0) "S" ++ [1] ∧
      (memberSeq (h' 0) "S").count 1 = (memberSeq (uheap 0) "S").count 1 + 1 ∧
      ∃ h'' db'', NetworkDatabase.connect_records (0 + 1) h' db' "S" 0 1 = some (h'', db'') ∧
        dlookup "S" (h'' 1).owner_links = some 0 ∧
        memberSeq (h'' 0) "S" = memberSeq (uheap 0) "S" ++ [1, 1] ∧
        ∃ ns'', dlookup "S" db''.sets = some ns'' ∧
          findInstMembers 0 ns''.instances = findInstMembers 0 nsW.instances ++ [1, 1]) :=
  ⟨uniqueIds_uheap, by decide, rfl,
    c1_connect_links_and_no_dedup 0 uheap dbW "S" 0 1 nsW uniqueIds_uheap (by decide) rfl⟩

/-! ## C2 -/

/-- C2: reconnecting a member to a new owner under the same set name
overwrites `member.owner_links[S]` to the new owner, while the old owner's
member sequence — both `oldOwner.member_links[S]` and the old owner's
`NetworkSet` instance — still lists the member (stale reference). -/
theorem c2_reconnect_overwrites_owner_keeps_stale_member (g : Nat) (h : Heap)
    (db : NetworkDatabase) (S : String) (o1 o2 m : RId) (ns : NetworkSet)
    (hu : UniqueIds h) (hreg : dlookup S db.sets = some ns) (hname : ns.set_name = S)
    (h12 : o1 ≠ o2) :
    ∃ h' db', NetworkDatabase.connect_records (g + 1) h db S o1 m = some (h', db') ∧
      dlookup S (h' m).owner_links = some o1 ∧
      ∃ h'' db'', NetworkDatabase.connect_records (g + 1) h' db' S o2 m = some (h'', db'') ∧
        dlookup S (h'' m).owner_links = some o2 ∧
        memberSeq (h'' o1) S = memberSeq (h o1) S ++ [m] ∧
        m ∈ memberSeq (h'' o1) S ∧
        ∃ ns'', dlookup S db''.sets = some ns'' ∧
          findInstMembers o1 ns''.instances = findInstMembers o1 ns.instances ++ [m] ∧
          m ∈ findInstMembers o1 ns''.instances := by
  refine ⟨linkMaint h S o1 m, _, connect_records_spec hu g db S o1 m ns hreg hname,
    dlookup_linkMaint_owner_links_member h S o1 m, ?_⟩
  have hu' : UniqueIds (linkMaint h S o1 m) := uniqueIds_linkMaint hu S o1 m
  have hreg' :
      dlookup S
        (dset S
          { ns with
            set_name := S,
            instances := applyFound ns.instances o1 m (firstIdx o1 ns.instances) }
          db.sets) =
        some
          { ns with
            set_name := S,
            instances := applyFound ns.instances o1 m (firstIdx o1 ns.instances) } :=
    dlookup_dset_self S _ db.sets
  refine ⟨linkMaint (linkMaint h S o1 m) S o2 m, _,
    connect_records_spec hu' g _ S o2 m _ hreg' rfl,
    dlookup_linkMaint_owner_links_member (linkMaint h S o1 m) S o2 m, ?_, ?_, ?_⟩
  · rw [memberSeq_linkMaint_of_ne (linkMaint h S o1 m) S m h12, memberSeq_linkMaint_owner]
  · rw [memberSeq_linkMaint_of_ne (linkMaint h S o1 m) S m h12, memberSeq_linkMaint_owner]
    exact List.mem_append_right _ (List.mem_singleton_self m)
  · refine ⟨_, dlookup_dset_self S _ _, ?_, ?_⟩
    · rw [findInstMembers_applyFound_other o2 o1 m h12, findInstMembers_applyFound_self]
    · rw [findInstMembers_applyFound_other o2 o1 m h12, findInstMembers_applyFound_self]
      exact List.mem_append_right _ (List.mem_singleton_self m)

/-- Witness for C2 at a concrete input: old owner at address `0`, new owner
at address `2`, member at address `1`. -/
theorem c2_reconnect_overwrites_owner_keeps_stale_member_witness :
    UniqueIds uheap ∧ dlookup "S" dbW.sets = some nsW ∧ nsW.set_name = "S" ∧
    (0 : RId) ≠ 2 ∧
    (∃ h' db', NetworkDatabase.connect_records (0 + 1) uheap dbW "S" 0 1 = some (h', db') ∧
      dlookup "S" (h' 1).owner_links = some 0 ∧
      ∃ h'' db'', NetworkDatabase.connect_records (0 + 1) h' db' "S" 2 1 = some (h'', db'') ∧
        dlookup "S" (h'' 1).owner_links = some 2 ∧
        memberSeq (h'' 0) "S" = memberSeq (uheap 0) "S" ++ [1] ∧
        1 ∈ memberSeq (h'' 0) "S" ∧
        ∃ ns'', dlookup "S" db''.sets = some ns'' ∧
          findInstMembers 0 ns''.instances = findInstMembers 0 nsW.instances ++ [1] ∧
          1 ∈ findInstMembers 0 ns''.instances) :=
  ⟨uniqueIds_uheap, by decide, rfl, by decide,
    c2_reconnect_overwrites_owner_keeps_stale_member 0 uheap dbW "S" 0 2 1 nsW
      uniqueIds_uheap (by decide) rfl (by decide)⟩

/-! ## C8 -/

/-- C8: with globally unique record ids, a successful `connect` never creates
a second instance for an owner that already has one — it appends the member
to the owner's instance; distinctness of the instances' owners is preserved,
and a new instance appears only for a previously absent owner. -/
theorem c8_at_most_one_instance_per_owner (g : Nat) (h : Heap) (ns : NetworkSet)
    (o m : RId) (hu : UniqueIds h) :
    ∃ h' ns', NetworkSet.connect (g + 1) h ns o m = some (h', ns') ∧
      ((ns.instances.map SetInstance.owner).Nodup →
        (ns'.instances.map SetInstance.owner).Nodup) ∧
      (o ∈ ns.instances.map SetInstance.owner →
        ns'.instances.length = ns.instances.length ∧
        findInstMembers o ns'.instances = findInstMembers o ns.instances ++ [m]) ∧
      (o ∉ ns.instances.map SetInstance.owner →
        ns'.instances.map SetInstance.owner = ns.instances.map SetInstance.owner ++ [o]) := by
  refine ⟨linkMaint h ns.set_name o m, _, connect_eq_of_uniqueIds hu g ns o m, ?_, ?_, ?_⟩
  · intro hnd
    show (List.map SetInstance.owner
      (applyFound ns.instances o m (firstIdx o ns.instances))).Nodup
    cases hfi : firstIdx o ns.instances with
    | none =>
      have hmem : o ∉ ns.instances.map SetInstance.owner := (firstIdx_eq_none_iff o _).1 hfi
      rw [map_owner_applyFound_none, List.nodup_append]
      refine ⟨hnd, List.nodup_singleton o, ?_⟩
      intro a ha hao
      rw [List.mem_singleton] at hao
      subst hao
      exact hmem ha
    | some i =>
      rw [map_owner_applyFound_some]
      exact hnd
  · intro hmem
    show (applyFound ns.instances o m (firstIdx o ns.instances)).length =
        ns.instances.length ∧
      findInstMembers o (applyFound ns.instances o m (firstIdx o ns.instances)) =
        findInstMembers o ns.instances ++ [m]
    cases hfi : firstIdx o ns.instances with
    | none =>
      exact absurd hmem ((firstIdx_eq_none_iff o _).1 hfi)
    | some i =>
      constructor
      · exact length_modifyIdx _ _ i
      · rw [← hfi]
        exact findInstMembers_applyFound_self o m ns.instances
  · intro hmem
    show List.map SetInstance.owner (applyFound ns.instances o m (firstIdx o ns.instances)) =
      List.map SetInstance.owner ns.instances ++ [o]
    rw [(firstIdx_eq_none_iff o _).2 hmem, map_owner_applyFound_none]

/-- Witness for C8 at a concrete input: a set with one existing instance for
the owner at address `0`, connecting member `2`. -/
theorem c8_at_most_one_instance_per_owner_witness :
    UniqueIds uheap ∧
    (∃ h' ns', NetworkSet.connect (0 + 1) uheap
        { set_name := "S", owner_type := "T", member_type := "T",
          instances := [{ owner := 0, members := [1] }] } 0 2 = some (h', ns') ∧
      (([{ owner := 0, members := [1] }].map SetInstance.owner).Nodup →
        (ns'.instances.map SetInstance.owner).Nodup) ∧
      ((0 : RId) ∈ [{ owner := 0, members := [1] }].map SetInstance.owner →
        ns'.instances.length = [({ owner := 0, members := [1] } : SetInstance)].length ∧
        findInstMembers 0 ns'.instances =
          findInstMembers 0 [{ owner := 0, members := [1] }] ++ [2]) ∧
      ((0 : RId) ∉ [{ owner := 0, members := [1] }].map SetInstance.owner →
        ns'.instances.map SetInstance.owner =
          [{ owner := 0, members := [1] }].map SetInstance.owner ++ [0])) :=
  ⟨uniqueIds_uheap,
    c8_at_most_one_instance_per_owner 0 uheap
      { set_name := "S", owner_type := "T", member_type := "T",
        instances := [{ owner := 0, members := [1] }] } 0 2 uniqueIds_uheap⟩

/-! ## C10 -/

/-- C10: `connect_records` on a registered set performs full link maintenance
for records never passed to `store_record`, leaving the records table and the
cursor unchanged. -/
theorem c10_connect_requires_no_storage (g : Nat) (h : Heap) (db : NetworkDatabase)
    (S : String) (o m : RId) (ns : NetworkSet)
    (hu : UniqueIds h) (hreg : dlookup S db.sets = some ns) (hname : ns.set_name = S)
    (ho : o ∉ db.records.map Prod.snd) (hm : m ∉ db.records.map Prod.snd) :
    ∃ h' db', NetworkDatabase.connect_records (g + 1) h db S o m = some (h', db') ∧
      dlookup S (h' m).owner_links = some o ∧
      memberSeq (h' o) S = memberSeq (h o) S ++ [m] ∧
      (∃ ns', dlookup S db'.sets = some ns' ∧
        findInstMembers o ns'.instances = findInstMembers o ns.instances ++ [m]) ∧
      db'.records = db.records ∧ db'.current_record = db.current_record := by
  refine ⟨linkMaint h S o m, _, connect_records_spec hu g db S o m ns hreg hname,
    dlookup_linkMaint_owner_links_member h S o m, memberSeq_linkMaint_owner h S o m,
    ⟨_, dlookup_dset_self S _ _, findInstMembers_applyFound_self o m ns.instances⟩,
    rfl, rfl⟩

/-- Witness for C10 at a concrete input: empty records table, owner `0` and
member `1` never stored. -/
theorem c10_connect_requires_no_storage_witness :
    UniqueIds uheap ∧ dlookup "S" dbW.sets = some nsW ∧ nsW.set_name = "S" ∧
    (0 : RId) ∉ dbW.records.map Prod.snd ∧ (1 : RId) ∉ dbW.records.map Prod.snd ∧
    (∃ h' db', NetworkDatabase.connect_records (0 + 1) uheap dbW "S" 0 1 = some (h', db') ∧
      dlookup "S" (h' 1).owner_links = some 0 ∧
      memberSeq (h' 0) "S" = memberSeq (uheap 0) "S" ++ [1] ∧
      (∃ ns', dlookup "S" db'.sets = some ns' ∧
        findInstMembers 0 ns'.instances = findInstMembers 0 nsW.instances ++ [1]) ∧
      db'.records = dbW.records ∧ db'.current_record = dbW.current_record) :=
  ⟨uniqueIds_uheap, by decide, rfl, by decide, by decide,
    c10_connect_requires_no_storage 0 uheap dbW "S" 0 1 nsW uniqueIds_uheap (by decide) rfl
      (by decide) (by decide)⟩

/-! ## C3 -/

/-- C3: `find_record` on the id of a stored record returns that record and
moves the cursor to it; on an id not present it returns `None` and leaves the
whole state — cursor included — unchanged, raising no fault. -/
theorem c3_find_record_hit_and_miss (h : Heap) (db : NetworkDatabase) (r : RId)
    (record_id : String) :
    (dlookup ((h r).record_id) db.records = some r →
      db.find_record ((h r).record_id) = ({ db with current_record := some r }, some r)) ∧
    (dlookup record_id db.records = none →
      db.find_record record_id = (db, none)) := by
  constructor
  · intro hl
    unfold NetworkDatabase.find_record
    rw [hl]
  · intro hl
    unfold NetworkDatabase.find_record
    rw [hl]

/-- Concrete record object for the C3 witness (`record_id = "X"`). -/
def hC3 : Heap := fun a =>
  if a = 5 then
    { record_type := "T", data := [], record_id := "X", owner_links := [], member_links := [] }
  else blankRecord

/-- Engine holding exactly `hC3 5` under id `"X"`. -/
def dbC3 : NetworkDatabase := { records := [("X", 5)], sets := [], current_record := none }

/-- Witness for C3 at a concrete input: a hit on `"X"` and a miss on `"Y"`. -/
theorem c3_find_record_hit_and_miss_witness :
    dlookup ((hC3 5).record_id) dbC3.records = some 5 ∧
    dbC3.find_record ((hC3 5).record_id) =
      ({ dbC3 with current_record := some 5 }, some 5) ∧
    dlookup "Y" dbC3.records = none ∧
    dbC3.find_record "Y" = (dbC3, none) :=
  ⟨by decide, (c3_find_record_hit_and_miss hC3 dbC3 5 "Y").1 (by decide), by decide,
    (c3_find_record_hit_and_miss hC3 dbC3 5 "Y").2 (by decide)⟩

/-! ## C5 -/

/-- C5: `find_members_in_set` never touches the cursor (it returns the
cursor's `member_links[S]` list or `[]`), while `find_owner_in_set` moves the
cursor to the owner exactly on success and leaves it unchanged — returning
`None` — when the cursor is unset or `S` is absent from its `owner_links`. -/
theorem c5_find_members_frames_cursor_find_owner_moves_it (h : Heap)
    (db : NetworkDatabase) (set_name : String) :
    (NetworkDatabase.find_members_in_set h db set_name).1 = db ∧
    (∀ c, db.current_record = some c →
      (NetworkDatabase.find_members_in_set h db set_name).2 =
        (dlookup set_name (h c).member_links).getD []) ∧
    (db.current_record = none →
      (NetworkDatabase.find_members_in_set h db set_name).2 = []) ∧
    (∀ c o, db.current_record = some c → dlookup set_name (h c).owner_links = some o →
      NetworkDatabase.find_owner_in_set h db set_name =
        ({ db with current_record := some o }, some o)) ∧
    (db.current_record = none →
      NetworkDatabase.find_owner_in_set h db set_name = (db, none)) ∧
    (∀ c, db.current_record = some c → dlookup set_name (h c).owner_links = none →
      NetworkDatabase.find_owner_in_set h db set_name = (db, none)) := by
  refine ⟨?_, ?_, ?_, ?_, ?_, ?_⟩
  · unfold NetworkDatabase.find_members_in_set
    cases hc : db.current_record with
    | none => rfl
    | some c =>
      show (match dlookup set_name (h c).member_links with
        | some ms => (db, ms)
        | none => (db, [])).1 = db
      cases dlookup set_name (h c).member_links <;> rfl
  · intro c hc
    unfold NetworkDatabase.find_members_in_set
    rw [hc]
    show (match dlookup set_name (h c).member_links with
      | some ms => (db, ms)
      | none => (db, [])).2 = (dlookup set_name (h c).member_links).getD []
    cases dlookup set_name (h c).member_links <;> rfl
  · intro hc
    unfold NetworkDatabase.find_members_in_set
    rw [hc]
  · intro c o hc ho
    unfold NetworkDatabase.find_owner_in_set
    rw [hc]
    show (match dlookup set_name (h c).owner_links with
      | some o => ({ db with current_record := some o }, some o)
      | none => (db, none)) = ({ db with current_record := some o }, some o)
    rw [ho]
  · intro hc
    unfold NetworkDatabase.find_owner_in_set
    rw [hc]
  · intro c hc ho
    unfold NetworkDatabase.find_owner_in_set
    rw [hc]
    show (match dlookup set_name (h c).owner_links with
      | some o => ({ db with current_record := some o }, some o)
      | none => (db, none)) = (db, none)
    rw [ho]

/-- Engine state for the C5 witness: cursor on the record at address `5`,
whose `owner_links` has `"S" ↦ 6` and whose `member_links` is empty. -/
def hC5 : Heap := fun a =>
  if a = 5 then
    { record_type := "T", data := [], record_id := "X", owner_links := [("S", 6)],
      member_links := [] }
  else blankRecord

/-- Engine for the C5 witness. -/
def dbC5 : NetworkDatabase := { records := [("X", 5)], sets := [], current_record := some 5 }

/-- Witness for C5 at a concrete input. -/
theorem c5_find_members_frames_cursor_find_owner_moves_it_witness :
    (NetworkDatabase.find_members_in_set hC5 dbC5 "S").1 = dbC5 ∧
    dbC5.current_record = some 5 ∧
    (NetworkDatabase.find_members_in_set hC5 dbC5 "S").2 =
      (dlookup "S" (hC5 5).member_links).getD [] ∧
    dlookup "S" (hC5 5).owner_links = some 6 ∧
    NetworkDatabase.find_owner_in_set hC5 dbC5 "S" =
      ({ dbC5 with current_record := some 6 }, some 6) :=
  ⟨(c5_find_members_frames_cursor_find_owner_moves_it hC5 dbC5 "S").1, by decide,
    (c5_find_members_frames_cursor_find_owner_moves_it hC5 dbC5 "S").2.1 5 (by decide),
    by decide,
    (c5_find_members_frames_cursor_find_owner_moves_it hC5 dbC5 "S").2.2.2.1 5 6 (by decide)
      (by decide)⟩

/-! ## C6 -/

/-- C6: `connect_records` with an unregistered set name is a silent no-op:
it returns leaving the heap (hence every record's link maps), the records
table, the sets table and the cursor exactly as they were. -/
theorem c6_connect_unknown_set_is_noop (fuel : Nat) (h : Heap) (db : NetworkDatabase)
    (set_name : String) (owner member : RId)
    (hS : dlookup set_name db.sets = none) :
    NetworkDatabase.connect_records fuel h db set_name owner member = some (h, db) := by
  unfold NetworkDatabase.connect_records
  rw [hS]

/-- Witness for C6 at a concrete input: empty sets table. -/
theorem c6_connect_unknown_set_is_noop_witness :
    dlookup "S" dbC3.sets = none ∧
    NetworkDatabase.connect_records 3 hC3 dbC3 "S" 0 1 = some (hC3, dbC3) :=
  ⟨rfl, c6_connect_unknown_set_is_noop 3 hC3 dbC3 "S" 0 1 rfl⟩

/-! ## C7 -/

/-- Two distinct record objects with the same `record_id` `"X"` and the same
type but different `data`. -/
def hC7 : Heap := fun a =>
  if a = 0 then
    { record_type := "T", data := [("k", PyVal.i 1)], record_id := "X",
      owner_links := [], member_links := [] }
  else if a = 1 then
    { record_type := "T", data := [("k", PyVal.i 2)], record_id := "X",
      owner_links := [], member_links := [] }
  else blankRecord

/-- C7 counterexample: record equality (the dataclass `__eq__` used by the
instance scan in `NetworkSet.connect`) is NOT determined by `record_id`
alone — two records with equal `record_id` but different `data` compare
unequal, so the claimed "equal iff same record_id" fails; only `__hash__`
uses `record_id`. -/
theorem c7_counterexample_same_id_not_equal :
    (hC7 0).record_id = (hC7 1).record_id ∧ pyEqR hC7 5 0 1 = some false := by
  constructor
  · rfl
  · decide

/-- C7 amended: the comparison used wherever records are compared (the
dataclass `__eq__`, in particular in the instance scan of
`NetworkSet.connect`) is full-field structural equality: records comparing
equal necessarily have equal `record_id`s, but equal `record_id`s do not
suffice (see the counterexample); `record_id` alone determines only the
hand-written `__hash__`. -/
theorem c7_amended_record_eq_implies_eq_record_id (h : Heap) (fuel : Nat) (a b : RId)
    (heq : pyEqR h fuel a b = some true) :
    (h a).record_id = (h b).record_id := by
  cases fuel with
  | zero => simp [pyEqR] at heq
  | succ g =>
    by_cases hab : a = b
    · rw [hab]
    · by_contra hid
      simp only [pyEqR, if_neg hab, if_pos hid, ite_self] at heq
      exact Bool.noConfusion (Option.some.inj heq)

/-- Witness for C7's amended theorem at a concrete input (`a = b = 0`,
budget `1`). -/
theorem c7_amended_record_eq_implies_eq_record_id_witness :
    pyEqR hC7 1 0 0 = some true ∧ (hC7 0).record_id = (hC7 0).record_id :=
  ⟨by decide, c7_amended_record_eq_implies_eq_record_id hC7 1 0 0 (by decide)⟩

/-! ## C9: end-to-end scenario

Heap addresses: `0 ↦ D001` (Department), `1 ↦ E001`, `2 ↦ E002` (Employees),
`3 ↦ P001`, `4 ↦ P002` (Projects). -/

/-- The five scenario records. -/
def h9 : Heap := fun a =>
  if a = 0 then
    { record_type := "Department", data := [("name", PyVal.s "Engineering")],
      record_id := "D001", owner_links := [], member_links := [] }
  else if a = 1 then
    { record_type := "Employee", data := [("name", PyVal.s "Alice")],
      record_id := "E001", owner_links := [], member_links := [] }
  else if a = 2 then
    { record_type := "Employee", data := [("name", PyVal.s "Bob")],
      record_id := "E002", owner_links := [], member_links := [] }
  else if a = 3 then
    { record_type := "Project", data := [("name", PyVal.s "Alpha")],
      record_id := "P001", owner_links := [], member_links := [] }
  else if a = 4 then
    { record_type := "Project", data := [("name", PyVal.s "Beta")],
      record_id := "P002", owner_links := [], member_links := [] }
  else blankRecord

/-- The engine after the two `define_set` calls and the five `store_record`
calls of the scenario. -/
def db9 : NetworkDatabase :=
  let db := NetworkDatabase.empty
  let db := db.define_set "DEPT_EMP" "Department" "Employee"
  let db := db.define_set "EMP_PROJ" "Employee" "Project"
  let db := (db.store_record h9 0).1
  let db := (db.store_record h9 1).1
  let db := (db.store_record h9 2).1
  let db := (db.store_record h9 3).1
  let db := (db.store_record h9 4).1
  db

/-- The three `connect_records` calls of the scenario:
`D001→E001`, `D001→E002` under `DEPT_EMP`, `E002→P002` under `EMP_PROJ`. -/
def scenario9 : Option (Heap × NetworkDatabase) := do
  let (h1, db1) ← NetworkDatabase.connect_records 10 h9 db9 "DEPT_EMP" 0 1
  let (h2, db2) ← NetworkDatabase.connect_records 10 h1 db1 "DEPT_EMP" 0 2
  let (h3, db3) ← NetworkDatabase.connect_records 10 h2 db2 "EMP_PROJ" 2 4
  pure (h3, db3)

/-- The state after the three connects (the connects succeed, as the first
conjunct of the C9 theorem proves). -/
def st9 : Heap × NetworkDatabase := scenario9.getD (h9, db9)

/-- Engine after `find_record("E002")`. -/
def db9a : NetworkDatabase := (st9.2.find_record "E002").1

/-- Engine after the subsequent `find_members_in_set("EMP_PROJ")`. -/
def db9b : NetworkDatabase := (NetworkDatabase.find_members_in_set st9.1 db9a "EMP_PROJ").1

/-- Engine after the subsequent `find_owner_in_set("DEPT_EMP")`. -/
def db9c : NetworkDatabase := (NetworkDatabase.find_owner_in_set st9.1 db9b "DEPT_EMP").1

/-- C9: the end-to-end scenario — after defining `DEPT_EMP` and `EMP_PROJ`,
storing D001/E001/E002/P001/P002 and connecting D001→E001, D001→E002
(DEPT_EMP) and E002→P002 (EMP_PROJ): `find_record("E002")` returns the E002
record and sets the cursor to it; `find_members_in_set("EMP_PROJ")` returns
exactly the P002 record; `find_owner_in_set("DEPT_EMP")` returns D001 and
moves the cursor to it; a final `find_owner_in_set("EMP_PROJ")` returns
empty with the cursor still on D001. -/
theorem c9_end_to_end_scenario :
    scenario9 = some st9 ∧
    (st9.1 2).record_id = "E002" ∧ (st9.1 0).record_id = "D001" ∧
    (st9.1 4).record_id = "P002" ∧
    (st9.2.find_record "E002").2 = some 2 ∧ db9a.current_record = some 2 ∧
    (NetworkDatabase.find_members_in_set st9.1 db9a "EMP_PROJ").2 = [4] ∧
    db9b.current_record = some 2 ∧
    (NetworkDatabase.find_owner_in_set st9.1 db9b "DEPT_EMP").2 = some 0 ∧
    db9c.current_record = some 0 ∧
    (NetworkDatabase.find_owner_in_set st9.1 db9c "EMP_PROJ").2 = none ∧
    (NetworkDatabase.find_owner_in_set st9.1 db9c "EMP_PROJ").1.current_record = some 0 :=
  ⟨rfl, by decide, by decide, by decide, by decide, by decide, by decide, by decide,
    by decide, by decide, by decide, by decide⟩

/-! ## C4: reachability and the cursor invariant -/

theorem find_members_fst (h : Heap) (db : NetworkDatabase) (set_name : String) :
    (NetworkDatabase.find_members_in_set h db set_name).1 = db := by
  unfold NetworkDatabase.find_members_in_set
  cases hc : db.current_record with
  | none => rfl
  | some c =>
    show (match dlookup set_name (h c).member_links with
      | some ms => (db, ms)
      | none => (db, [])).1 = db
    cases dlookup set_name (h c).member_links <;> rfl

/-- All states reachable from `s0` through the engine's six public
operations with arbitrary arguments (a `connect_records` step exists exactly
when the call returns instead of raising). -/
inductive Reach (s0 : Heap × NetworkDatabase) : Heap × NetworkDatabase → Prop where
  | refl : Reach s0 s0
  | define_set (h : Heap) (db : NetworkDatabase) (set_name owner_type member_type : String) :
      Reach s0 (h, db) → Reach s0 (h, db.define_set set_name owner_type member_type)
  | store_record (h : Heap) (db : NetworkDatabase) (r : RId) :
      Reach s0 (h, db) → Reach s0 (h, (db.store_record h r).1)
  | find_record (h : Heap) (db : NetworkDatabase) (record_id : String) :
      Reach s0 (h, db) → Reach s0 (h, (db.find_record record_id).1)
  | find_owner (h : Heap) (db : NetworkDatabase) (set_name : String) :
      Reach s0 (h, db) → Reach s0 (h, (NetworkDatabase.find_owner_in_set h db set_name).1)
  | find_members (h : Heap) (db : NetworkDatabase) (set_name : String) :
      Reach s0 (h, db) → Reach s0 (h, (NetworkDatabase.find_members_in_set h db set_name).1)
  | connect (h : Heap) (db : NetworkDatabase) (fuel : Nat) (set_name : String)
      (owner member : RId) (s' : Heap × NetworkDatabase) :
      Reach s0 (h, db) →
      NetworkDatabase.connect_records fuel h db set_name owner member = some s' →
      Reach s0 s'

/-- Heap for the C4 counterexample: record `"A"` at address `0`, record `"B"`
at address `1`, both with empty link maps. -/
def c4h : Heap := fun a =>
  if a = 0 then
    { record_type := "T", data := [], record_id := "A", owner_links := [], member_links := [] }
  else if a = 1 then
    { record_type := "T", data := [], record_id := "B", owner_links := [], member_links := [] }
  else blankRecord

/-- After `define_set("S", "T", "T")`. -/
def c4db1 : NetworkDatabase := NetworkDatabase.empty.define_set "S" "T" "T"

/-- After `store_record` of the record at address `1` only (the record at
address `0` is never stored). -/
def c4db2 : NetworkDatabase := (c4db1.store_record c4h 1).1

/-- After `connect_records("S", record 0, record 1)`. -/
def c4s3 : Heap × NetworkDatabase :=
  (NetworkDatabase.connect_records 5 c4h c4db2 "S" 0 1).getD (c4h, c4db2)

/-- After `find_record("B")` (cursor on the stored record `1`). -/
def c4s4 : Heap × NetworkDatabase := (c4s3.1, (c4s3.2.find_record "B").1)

/-- After `find_owner_in_set("S")`: the cursor now points at record `0`,
which is absent from the records table. -/
def c4s5 : Heap × NetworkDatabase :=
  (c4s4.1, (NetworkDatabase.find_owner_in_set c4s4.1 c4s4.2 "S").1)

/-- C4 counterexample: from the empty engine, the operation sequence
`define_set("S","T","T")`; `store_record(record 1)`;
`connect_records("S", record 0, record 1)` (record `0` never stored);
`find_record("B")`; `find_owner_in_set("S")` reaches a state whose cursor is
record `0`, a record not present in the records table — the claimed
invariant fails. -/
theorem c4_counterexample_cursor_leaves_records :
    Reach (c4h, NetworkDatabase.empty) c4s5 ∧
    c4s5.2.current_record = some 0 ∧
    (0 : RId) ∉ c4s5.2.records.map Prod.snd := by
  refine ⟨?_, by decide, by decide⟩
  have t1 : Reach (c4h, NetworkDatabase.empty) (c4h, c4db1) :=
    Reach.define_set c4h NetworkDatabase.empty "S" "T" "T" Reach.refl
  have t2 : Reach (c4h, NetworkDatabase.empty) (c4h, c4db2) :=
    Reach.store_record c4h c4db1 1 t1
  have t3 : Reach (c4h, NetworkDatabase.empty) c4s3 :=
    Reach.connect c4h c4db2 5 "S" 0 1 c4s3 t2 rfl
  have t4 : Reach (c4h, NetworkDatabase.empty) c4s4 :=
    Reach.find_record c4s3.1 c4s3.2 "B" t3
  exact Reach.find_owner c4s4.1 c4s4.2 "S" t4

/-- Reachability restricted as the amended C4 requires: a `store_record` step
never rebinds an id to a different record object, and a `connect_records`
step is invoked only on records present in the records table. -/
inductive SafeReach (s0 : Heap × NetworkDatabase) : Heap × NetworkDatabase → Prop where
  | refl : SafeReach s0 s0
  | define_set (h : Heap) (db : NetworkDatabase) (set_name owner_type member_type : String) :
      SafeReach s0 (h, db) → SafeReach s0 (h, db.define_set set_name owner_type member_type)
  | store_record (h : Heap) (db : NetworkDatabase) (r : RId) :
      SafeReach s0 (h, db) →
      (∀ r', dlookup ((h r).record_id) db.records = some r' → r' = r) →
      SafeReach s0 (h, (db.store_record h r).1)
  | find_record (h : Heap) (db : NetworkDatabase) (record_id : String) :
      SafeReach s0 (h, db) → SafeReach s0 (h, (db.find_record record_id).1)
  | find_owner (h : Heap) (db : NetworkDatabase) (set_name : String) :
      SafeReach s0 (h, db) → SafeReach s0 (h, (NetworkDatabase.find_owner_in_set h db set_name).1)
  | find_members (h : Heap) (db : NetworkDatabase) (set_name : String) :
      SafeReach s0 (h, db) → SafeReach s0 (h, (NetworkDatabase.find_members_in_set h db set_name).1)
  | connect (h : Heap) (db : NetworkDatabase) (fuel : Nat) (set_name : String)
      (owner member : RId) (s' : Heap × NetworkDatabase) :
      SafeReach s0 (h, db) →
      owner ∈ db.records.map Prod.snd →
      member ∈ db.records.map Prod.snd →
      NetworkDatabase.connect_records fuel h db set_name owner member = some s' →
      SafeReach s0 s'

/-- The strengthened invariant carried through the induction: the cursor, and
every target of an `owner_links` pointer, lies in the records table. -/
def StateInv (st : Heap × NetworkDatabase) : Prop :=
  (∀ r, st.2.current_record = some r → r ∈ st.2.records.map Prod.snd) ∧
  (∀ a s o, dlookup s (st.1 a).owner_links = some o → o ∈ st.2.records.map Prod.snd)

theorem safeReach_stateInv (h0 : Heap) (st : Heap × NetworkDatabase)
    (hinit : ∀ a, (h0 a).owner_links = [])
    (hr : SafeReach (h0, NetworkDatabase.empty) st) : StateInv st := by
  induction hr with
  | refl =>
    constructor
    · intro r hcur
      simp [NetworkDatabase.empty] at hcur
    · intro a s o hl
      rw [hinit a] at hl
      simp [dlookup] at hl
  | define_set h db sn ot mt hprev ih =>
    obtain ⟨ih1, ih2⟩ := ih
    exact ⟨fun r hcur => ih1 r hcur, fun a s o hl => ih2 a s o hl⟩
  | store_record h db r hprev hcond ih =>
    obtain ⟨ih1, ih2⟩ := ih
    constructor
    · intro r' hcur
      exact mem_values_dset hcond (ih1 r' hcur)
    · intro a s o hl
      exact mem_values_dset hcond (ih2 a s o hl)
  | find_record h db rid hprev ih =>
    obtain ⟨ih1, ih2⟩ := ih
    cases hl : dlookup rid db.records with
    | none =>
      constructor
      · intro r hcur
        simp only [NetworkDatabase.find_record, hl] at hcur ⊢
        exact ih1 r hcur
      · intro a s o hlk
        simp only [NetworkDatabase.find_record, hl]
        exact ih2 a s o hlk
    | some r2 =>
      constructor
      · intro r hcur
        simp only [NetworkDatabase.find_record, hl] at hcur
        have hr2 : r = r2 := (Option.some.inj hcur).symm
        subst hr2
        simp only [NetworkDatabase.find_record, hl]
        exact mem_values_of_dlookup hl
      · intro a s o hlk
        simp only [NetworkDatabase.find_record, hl]
        exact ih2 a s o hlk
  | find_owner h db sn hprev ih =>
    obtain ⟨ih1, ih2⟩ := ih
    cases hcur0 : db.current_record with
    | none =>
      constructor
      · intro r hcur
        simp only [NetworkDatabase.find_owner_in_set, hcur0] at hcur
        simp at hcur
      · intro a s o hlk
        simp only [NetworkDatabase.find_owner_in_set, hcur0]
        exact ih2 a s o hlk
    | some c =>
      cases hl : dlookup sn (h c).owner_links with
      | none =>
        constructor
        · intro r hcur
          simp only [NetworkDatabase.find_owner_in_set, hcur0, hl] at hcur ⊢
          exact ih1 r (hcur0.trans (congrArg some (Option.some.inj hcur)))
        · intro a s o hlk
          simp only [NetworkDatabase.find_owner_in_set, hcur0, hl]
          exact ih2 a s o hlk
      | some ow =>
        constructor
        · intro r hcur
          simp only [NetworkDatabase.find_owner_in_set, hcur0, hl] at hcur
          have how : r = ow := (Option.some.inj hcur).symm
          subst how
          simp only [NetworkDatabase.find_owner_in_set, hcur0, hl]
          exact ih2 c sn r hl
        · intro a s o hlk
          simp only [NetworkDatabase.find_owner_in_set, hcur0, hl]
          exact ih2 a s o hlk
  | find_members h db sn hprev ih =>
    rw [show (h, (NetworkDatabase.find_members_in_set h db sn).1) = (h, db) by
      rw [find_members_fst]]
    exact ih
  | connect h db fuel sn o m s' hprev hmo hmm hcc ih =>
    obtain ⟨ih1, ih2⟩ := ih
    obtain ⟨h', db'⟩ := s'
    obtain ⟨hrec, hcur, hlinks⟩ := connect_records_state hcc
    constructor
    · intro r hcurr
      rw [hcur] at hcurr
      show r ∈ db'.records.map Prod.snd
      rw [hrec]
      exact ih1 r hcurr
    · intro a s v hlk
      rcases hlinks a s v hlk with hv | hold
      · subst hv
        show v ∈ db'.records.map Prod.snd
        rw [hrec]
        exact hmo
      · show v ∈ db'.records.map Prod.snd
        rw [hrec]
        exact ih2 a s v hold

/-- C4 amended: the cursor invariant holds on every state reachable from the
empty engine when records start with empty link maps, `store_record` never
rebinds an id to a different record object, and `connect_records` is invoked
only on stored records; without those restrictions the invariant fails (see
the counterexample). -/
theorem c4_amended_cursor_invariant (h0 : Heap) (st : Heap × NetworkDatabase)
    (hinit : ∀ a, (h0 a).owner_links = [])
    (hr : SafeReach (h0, NetworkDatabase.empty) st) :
    ∀ r, st.2.current_record = some r → r ∈ st.2.records.map Prod.snd :=
  (safeReach_stateInv h0 st hinit hr).1

/-- Heap for the C4-amended witness: record `"A"` at address `0` with empty
link maps everywhere. -/
def c4hW : Heap := fun a =>
  if a = 0 then
    { record_type := "T", data := [], record_id := "A", owner_links := [], member_links := [] }
  else blankRecord

/-- Safe trace for the witness: store record `0`, then `find_record("A")`. -/
def c4wSt : Heap × NetworkDatabase :=
  (c4hW, (((NetworkDatabase.empty.store_record c4hW 0).1).find_record "A").1)

/-- Witness for the amended C4 at a concrete safely-reached state whose
cursor is set. -/
theorem c4_amended_cursor_invariant_witness :
    (∀ a, (c4hW a).owner_links = []) ∧
    c4wSt.2.current_record = some 0 ∧
    ∀ r, c4wSt.2.current_record = some r → r ∈ c4wSt.2.records.map Prod.snd :=
  ⟨fun a => by
      unfold c4hW
      by_cases h0 : a = 0 <;> simp [h0, blankRecord],
    by decide,
    c4_amended_cursor_invariant c4hW c4wSt (fun a => by
        unfold c4hW
        by_cases h0 : a = 0 <;> simp [h0, blankRecord])
      (SafeReach.find_record c4hW (NetworkDatabase.empty.store_record c4hW 0).1 "A"
        (SafeReach.store_record c4hW NetworkDatabase.empty 0 SafeReach.refl
          (fun r' hl => by simp [NetworkDatabase.empty, dlookup] at hl)))⟩
